import Mathlib

/-!
Shallow embedding of the dnsfs in-memory FUSE filesystem
(src/src/main.rs and src/src/inode.rs) in Lean 4.

Conventions of the embedding:
* Rust `u64`/`u32`/`u16` values are modelled as `Nat`; wherever the source
  truncates (`as u16`, `try_into`) the model applies `% 65536` or a
  fallibility check at the same spot.
* `BTreeMap<u64, _>` is modelled as an association list kept in ascending
  key order by `mapInsert` (matching the map's iteration order, which the
  source relies on in `get_inode_by_path`).
* A handler returns `Option (Reply × TreeFilesystem)`.  `none` models a
  panic (`unwrap`/`todo!`/`assert!` failure or a slice-bounds violation) or
  a non-terminating loop; `some (r, fs')` models the single reply `r` with
  post-state `fs'`.
* `SystemTime::now()` is modelled by an explicit `now : Nat` argument.
* The two methods called by the source but not defined anywhere under
  src/ (`write_data`, `set_name`) are modelled from the spec and marked so.
-/

namespace Dnsfs

/-- libc and fuser constants used by the source (Linux values). -/
def O_ACCMODE : Nat := 3

def O_RDONLY : Nat := 0

def O_WRONLY : Nat := 1

def O_RDWR : Nat := 2

def O_TRUNC : Nat := 512

def FMODE_EXEC : Nat := 32

def EPERM : Nat := 1

def ENOENT : Nat := 2

def EBADF : Nat := 9

def EACCES : Nat := 13

def EEXIST : Nat := 17

def EINVAL : Nat := 22

def ENOSYS : Nat := 38

def S_ISGID : Nat := 1024

def FILE_HANDLE_READ_BIT : Nat := 2 ^ 63

def FILE_HANDLE_WRITE_BIT : Nat := 2 ^ 62

/-- `fuser::FileType` restricted to the variants the source constructs. -/
inductive FKind where
  | RegularFile
  | Directory
  | Symlink
deriving DecidableEq, Repr

/-- `fuser::FileAttr`, with timestamps as `Nat`. -/
structure FileAttr where
  ino : Nat
  size : Nat
  blocks : Nat
  atime : Nat
  mtime : Nat
  ctime : Nat
  crtime : Nat
  kind : FKind
  perm : Nat
  nlink : Nat
  uid : Nat
  gid : Nat
  rdev : Nat
  flags : Nat
  blksize : Nat
deriving DecidableEq, Repr

/-- `inode::FileInode`; `data` is the byte buffer. -/
structure FileInode where
  inode_num : Nat
  attrs : FileAttr
  path : String
  data : List Nat
  num_links : Nat
  name : String
  parent : Nat
deriving DecidableEq, Repr

/-- `inode::LinkInode`. -/
structure LinkInode where
  inode_num : Nat
  attrs : FileAttr
  path : String
  target : Nat
  name : String
  parent : Nat
  num_links : Nat
  target_path : String
deriving DecidableEq, Repr

/-- `inode::DirectoryInode`. -/
structure DirectoryInode where
  inode_num : Nat
  attrs : FileAttr
  path : String
  contents : List Nat
  num_links : Nat
  parent : Nat
  name : String
deriving DecidableEq, Repr

/-- `inode::Inode`, the tagged union. -/
inductive Inode where
  | FileInode (a : FileInode)
  | DirectoryInode (b : DirectoryInode)
  | LinkInode (c : LinkInode)
deriving DecidableEq, Repr

/-- The requesting uid/gid carried by `fuser::Request`. -/
structure Request where
  uid : Nat
  gid : Nat
deriving DecidableEq, Repr

/-- `fuser::TimeOrNow`. -/
inductive TimeOrNow where
  | now
  | specificTime (t : Nat)
deriving DecidableEq, Repr

/-- The single reply a handler issues (one constructor per reply method used
by the source: `reply.error`, `reply.attr`, `reply.entry`, the collected
`reply.add`+`reply.ok` of readdir, `reply.data`, `reply.opened`,
`reply.written`, `reply.ok`, `reply.created`). -/
inductive Reply where
  | error (errno : Nat)
  | attr (ttlSecs : Nat) (a : FileAttr)
  | entry (ttlSecs : Nat) (a : FileAttr) (generation : Nat)
  | dirOk (entries : List (Nat × Nat × FKind × String))
  | dataBytes (bytes : List Nat)
  | opened (fh : Nat) (flags : Nat)
  | written (n : Nat)
  | okEmpty
  | created (ttlSecs : Nat) (a : FileAttr) (generation : Nat) (fh : Nat) (flags : Nat)
deriving DecidableEq, Repr

/-- Association-list lookup, modelling `BTreeMap::get`. -/
def mapGet {α : Type} : List (Nat × α) → Nat → Option α
  | [], _ => none
  | (k', v) :: rest, k => if k = k' then some v else mapGet rest k

/-- Association-list insert keeping ascending key order, modelling
`BTreeMap::insert` (insert or overwrite). -/
def mapInsert {α : Type} : List (Nat × α) → Nat → α → List (Nat × α)
  | [], k, v => [(k, v)]
  | (k', v') :: rest, k, v =>
    if k < k' then (k, v) :: (k', v') :: rest
    else if k = k' then (k, v) :: rest
    else (k', v') :: mapInsert rest k v

/-- Association-list removal, modelling `BTreeMap::remove`. -/
def mapRemove {α : Type} : List (Nat × α) → Nat → List (Nat × α)
  | [], _ => []
  | (k', v') :: rest, k => if k = k' then rest else (k', v') :: mapRemove rest k

theorem mapGet_insert {α : Type} (l : List (Nat × α)) (k : Nat) (v : α) (i : Nat) :
    mapGet (mapInsert l k v) i = if i = k then some v else mapGet l i := by
  induction l with
  | nil => by_cases h : i = k <;> simp [mapInsert, mapGet, h]
  | cons hd tl ih =>
    obtain ⟨k', v'⟩ := hd
    by_cases hlt : k < k'
    · by_cases h : i = k <;> simp [mapInsert, mapGet, hlt, h]
    · by_cases heq : k = k'
      · subst heq
        by_cases h : i = k <;> simp [mapInsert, mapGet, hlt, h]
      · by_cases h : i = k'
        · subst h
          have hik : ¬ i = k := fun hc => heq hc.symm
          simp [mapInsert, mapGet, hlt, heq, hik]
        · simp [mapInsert, mapGet, hlt, heq, h, ih]

/-- Accessor `InodeTrait::target`. -/
def Inode.target : Inode → Option Nat
  | .FileInode _ => none
  | .DirectoryInode _ => none
  | .LinkInode c => some c.target

/-- Accessor `InodeTrait::inode_num`. -/
def Inode.inode_num : Inode → Nat
  | .FileInode a => a.inode_num
  | .DirectoryInode b => b.inode_num
  | .LinkInode c => c.inode_num

/-- Accessor `InodeTrait::attrs`. -/
def Inode.attrs : Inode → FileAttr
  | .FileInode a => a.attrs
  | .DirectoryInode b => b.attrs
  | .LinkInode c => c.attrs

/-- Accessor `InodeTrait::path`. -/
def Inode.path : Inode → String
  | .FileInode a => a.path
  | .DirectoryInode b => b.path
  | .LinkInode c => c.path

/-- Accessor `InodeTrait::data`; `todo!()` (= `none`) on non-file inodes. -/
def Inode.data : Inode → Option (List Nat)
  | .FileInode a => some a.data
  | .DirectoryInode _ => none
  | .LinkInode _ => none

/-- Accessor `InodeTrait::name`. -/
def Inode.name : Inode → String
  | .FileInode a => a.name
  | .DirectoryInode b => b.name
  | .LinkInode c => c.name

/-- Accessor `InodeTrait::contents`; `todo!()` (= `none`) on non-directories. -/
def Inode.contents : Inode → Option (List Nat)
  | .FileInode _ => none
  | .DirectoryInode b => some b.contents
  | .LinkInode _ => none

/-- Accessor `InodeTrait::get_symlink_data`; outer `none` is the `todo!()`
panic on non-links, the inner option is the source's return value. -/
def Inode.get_symlink_data : Inode → Option (Option String)
  | .FileInode _ => none
  | .DirectoryInode _ => none
  | .LinkInode c => some (if c.target_path.length > 0 then some c.target_path else none)

/-- Setter `InodeTrait::set_attrs`. -/
def Inode.set_attrs : Inode → FileAttr → Inode
  | .FileInode a, attrs => .FileInode { a with attrs := attrs }
  | .DirectoryInode b, attrs => .DirectoryInode { b with attrs := attrs }
  | .LinkInode c, attrs => .LinkInode { c with attrs := attrs }

/-- Setter `InodeTrait::set_path`. -/
def Inode.set_path : Inode → String → Inode
  | .FileInode a, p => .FileInode { a with path := p }
  | .DirectoryInode b, p => .DirectoryInode { b with path := p }
  | .LinkInode c, p => .LinkInode { c with path := p }

/-- Setter `InodeTrait::set_parent`. -/
def Inode.set_parent : Inode → Nat → Inode
  | .FileInode a, p => .FileInode { a with parent := p }
  | .DirectoryInode b, p => .DirectoryInode { b with parent := p }
  | .LinkInode c, p => .LinkInode { c with parent := p }

/-- Setter `InodeTrait::set_contents`; `todo!()` (= `none`) on non-directories. -/
def Inode.set_contents : Inode → List Nat → Option Inode
  | .FileInode _, _ => none
  | .DirectoryInode b, cs => some (.DirectoryInode { b with contents := cs })
  | .LinkInode _, _ => none

/-- Modelled from the spec: `set_name` is called by `rename`
("Update source inode's `parent`, `path`, `name`") but is not declared in
src/src/inode.rs; it sets the basename field of any variant. -/
def Inode.set_name : Inode → String → Inode
  | .FileInode a, n => .FileInode { a with name := n }
  | .DirectoryInode b, n => .DirectoryInode { b with name := n }
  | .LinkInode c, n => .LinkInode { c with name := n }

/-- Modelled from the spec: `write_data(data, offset)` is called by the
write handler but is not defined under src/.  Per spec §4.5 write:
existing bytes before `offset` are preserved, the bytes from `offset` on
are replaced by `data`, and bytes after are dropped.  Per invariant I6,
touching the data of a non-file inode is fatal (= `none`). -/
def Inode.write_data : Inode → List Nat → Nat → Option Inode
  | .FileInode a, d, offset => some (.FileInode { a with data := a.data.take offset ++ d })
  | .DirectoryInode _, _, _ => none
  | .LinkInode _, _, _ => none

/-- True exactly on the `LinkInode` variant. -/
def Inode.isLink : Inode → Bool
  | .LinkInode _ => true
  | _ => false

/-- Whether a string starts with a slash (written over the char list so
that it reduces inside the kernel). -/
def headIsSlash (s : String) : Bool :=
  match s.data with
  | [] => false
  | c :: _ => c = '/'

/-- Whether a string ends with a slash. -/
def lastIsSlash (s : String) : Bool :=
  match s.data.getLast? with
  | some c => c = '/'
  | none => false

/-- `std::path::Path::join` for the shapes the source uses: an absolute
second component replaces the first, a trailing slash is not doubled. -/
def path_join (a b : String) : String :=
  if headIsSlash b then b
  else if lastIsSlash a then a ++ b
  else a ++ "/" ++ b

/-- Split a character list at every slash. -/
def splitSlash : List Char → List (List Char)
  | [] => [[]]
  | c :: rest =>
    if c = '/' then [] :: splitSlash rest
    else
      match splitSlash rest with
      | [] => [[c]]
      | g :: gs => (c :: g) :: gs

/-- `std::path::Path::file_name`: the final path component, skipping empty
components and single dots; `none` when the path ends in `..` or has no
component (the source follows it with `unwrap`). -/
def file_name (p : String) : Option String :=
  match ((splitSlash p.data).filter (fun c => c ≠ [] ∧ c ≠ ['.'])).reverse with
  | [] => none
  | c :: _ => if c = ['.', '.'] then none else some (String.mk c)

/-- `Path::strip_prefix("/")` as the symlink handler uses it: drop the
leading slash, `none` (→ `unwrap` panic) when the path has none. -/
def strip_slash (p : String) : Option String :=
  match p.data with
  | '/' :: rest => some (String.mk rest)
  | _ => none

/-- Byte contents of a string (the source stores file data as `Vec<u8>`;
all data in play is ASCII, so code points model bytes). -/
def strBytes (s : String) : List Nat := s.data.map Char.toNat

/-- The filesystem state struct `TreeFilesystem`. -/
structure TreeFilesystem where
  tree : List (Nat × Inode)
  cur_inode : Nat
  block_size : Nat
  file_handles : List (Nat × Nat)
  mountpoint : String
deriving DecidableEq, Repr

/-- `TreeFilesystem::get_inode`. -/
def TreeFilesystem.get_inode (fs : TreeFilesystem) (ino : Nat) : Option Inode :=
  mapGet fs.tree ino

/-- `TreeFilesystem::set_inode`. -/
def TreeFilesystem.set_inode (fs : TreeFilesystem) (ino : Nat) (inode_data : Inode) :
    TreeFilesystem :=
  { fs with tree := mapInsert fs.tree ino inode_data }

/-- `TreeFilesystem::remove_inode`. -/
def TreeFilesystem.remove_inode (fs : TreeFilesystem) (ino : Nat) : TreeFilesystem :=
  { fs with tree := mapRemove fs.tree ino }

/-- The linear scan inside `TreeFilesystem::get_inode_by_path`, in map
iteration order. -/
def pathScan : List (Nat × Inode) → String → Option Inode
  | [], _ => none
  | (_, v) :: rest, p => if p = v.path then some v else pathScan rest p

/-- `TreeFilesystem::get_inode_by_path`. -/
def TreeFilesystem.get_inode_by_path (fs : TreeFilesystem) (path : String) : Option Inode :=
  pathScan fs.tree path

/-- `TreeFilesystem::can_read` (the `&self` receiver is unused). -/
def can_read (mode uid gid req_uid req_gid : Nat) : Bool :=
  let is_owner := req_uid == uid
  let is_in_grp := req_gid == gid
  let can_owner_read := mode &&& 256 != 0
  let can_grp_read := mode &&& 32 != 0
  let can_other_read := mode &&& 4 != 0
  if (can_owner_read && is_owner) || (can_grp_read && is_in_grp) || can_other_read ||
      (req_uid == 0 && req_gid == 0) then
    true
  else false

/-- `TreeFilesystem::can_write` (the `&self` receiver is unused). -/
def can_write (mode uid gid req_uid req_gid : Nat) : Bool :=
  let is_owner := req_uid == uid
  let is_in_grp := req_gid == gid
  let can_owner_write := mode &&& 128 != 0
  let can_grp_write := mode &&& 16 != 0
  let can_other_write := mode &&& 2 != 0
  if (can_owner_write && is_owner) || (can_grp_write && is_in_grp) || can_other_write ||
      (req_uid == 0 && req_gid == 0) then
    true
  else false

/-- `TreeFilesystem::can_execute` (the `&self` receiver is unused). -/
def can_execute (mode uid gid req_uid req_gid : Nat) : Bool :=
  let is_owner := req_uid == uid
  let is_in_grp := req_gid == gid
  let can_owner_exec := mode &&& 64 != 0
  let can_grp_exec := mode &&& 8 != 0
  let can_other_exec := mode &&& 1 != 0
  if (can_owner_exec && is_owner) || (can_grp_exec && is_in_grp) || can_other_exec ||
      (req_uid == 0 && req_gid == 0) then
    true
  else false

/-- The `while target != 0` loop of `TreeFilesystem::resolve_symlink`,
made total by fuel.  The loop state is `(target, cur_ino)`; the result
`some r` is the source's `self.get_inode(cur_ino.inode_num())`, outer
`none` means the fuel ran out, i.e. the source loop does not terminate
(once the fuel exceeds the number of store entries, running out implies a
repeated `target`, and the loop state is a pure function of `target`). -/
def resolveLoop (tree : List (Nat × Inode)) : Nat → Nat → Inode → Option (Option Inode)
  | 0, target, cur =>
    if target = 0 then some (mapGet tree cur.inode_num) else none
  | fuel + 1, target, cur =>
    if target = 0 then some (mapGet tree cur.inode_num)
    else
      match mapGet tree target with
      | none => some (mapGet tree cur.inode_num)
      | some a => resolveLoop tree fuel ((Inode.target a).getD 0) a

/-- `TreeFilesystem::resolve_symlink`.  `some r` is the source's return
value `r`; `none` models non-termination of the unguarded loop. -/
def TreeFilesystem.resolve_symlink (fs : TreeFilesystem) (inode : Inode) :
    Option (Option Inode) :=
  match inode.target with
  | none => some none
  | some t => resolveLoop fs.tree (fs.tree.length + 1) t inode

/-- `TreeFilesystem::allocate_file_handle`; `none` is the `assert!` panic
on counter saturation. -/
def TreeFilesystem.allocate_file_handle (fs : TreeFilesystem) (ino : Nat)
    (can_r can_w : Bool) : Option (Nat × TreeFilesystem) :=
  let fh_num := match mapGet fs.file_handles ino with
    | some curfh => curfh + 1
    | none => 1
  if fh_num < FILE_HANDLE_WRITE_BIT then
    let fs' := { fs with file_handles := mapInsert fs.file_handles ino fh_num }
    let fh := if can_r then fh_num ||| FILE_HANDLE_READ_BIT else fh_num
    let fh := if can_w then fh ||| FILE_HANDLE_WRITE_BIT else fh
    some (fh, fs')
  else none

/-- `TreeFilesystem::release_file_handle`; `none` is the `unwrap` panic
when the inode has no counter entry. -/
def TreeFilesystem.release_file_handle (fs : TreeFilesystem) (ino : Nat) :
    Option TreeFilesystem :=
  match mapGet fs.file_handles ino with
  | none => none
  | some fh_num =>
    if fh_num ≠ 0 then
      some { fs with file_handles := mapInsert fs.file_handles ino (fh_num - 1) }
    else some fs

/-- `TreeFilesystem::create_inode`.  `none` models the panics the source
can hit: `file_name().unwrap()`, the `todo!()` for non file/directory
kinds, `get_inode(parent).unwrap()`, and `contents`/`set_contents` on a
non-directory parent. -/
def TreeFilesystem.create_inode (fs : TreeFilesystem) (path : String) (ino_type : FKind)
    (mode size uid gid parent : Nat) (dataBytes : List Nat) (now : Nat) :
    Option (Inode × TreeFilesystem) :=
  let cur := fs.cur_inode + 1
  let attr : FileAttr :=
    { ino := cur, size := size, blocks := (size + fs.block_size - 1) / fs.block_size,
      atime := now, mtime := now, ctime := now, crtime := now, kind := ino_type,
      perm := mode, nlink := 1, uid := uid, gid := gid, rdev := 0, flags := 0,
      blksize := fs.block_size }
  match if path = "/" then some path else file_name path with
  | none => none
  | some name =>
    match (match ino_type with
      | .RegularFile => some (Inode.FileInode
          { inode_num := cur, attrs := attr, path := path, data := dataBytes,
            num_links := attr.nlink, parent := parent, name := name })
      | .Directory => some (Inode.DirectoryInode
          { inode_num := cur, attrs := attr, path := path, contents := [],
            num_links := attr.nlink, parent := parent, name := name })
      | .Symlink => none) with
    | none => none
    | some inode =>
      let fs1 : TreeFilesystem := { fs with cur_inode := cur }
      if cur ≠ 1 then
        match fs1.get_inode parent with
        | none => none
        | some parent_inode =>
          match parent_inode.contents with
          | none => none
          | some pcontents =>
            match parent_inode.set_contents (pcontents ++ [cur]) with
            | none => none
            | some p' =>
              some (inode, (fs1.set_inode p'.inode_num p').set_inode cur inode)
      else some (inode, fs1.set_inode cur inode)

/-- `TreeFilesystem::create_symlink`.  Mirrors `create_inode` and, if the
passed `target` number is present in the store, bumps its `nlink` by one
before inserting the new link inode. -/
def TreeFilesystem.create_symlink (fs : TreeFilesystem) (path : String)
    (mode size uid gid parent target : Nat) (target_path : String) (now : Nat) :
    Option (Inode × TreeFilesystem) :=
  let cur := fs.cur_inode + 1
  let attr : FileAttr :=
    { ino := cur, size := size, blocks := (size + fs.block_size - 1) / fs.block_size,
      atime := now, mtime := now, ctime := now, crtime := now, kind := .Symlink,
      perm := mode, nlink := 1, uid := uid, gid := gid, rdev := 0, flags := 0,
      blksize := fs.block_size }
  match if path = "/" then some path else file_name path with
  | none => none
  | some name =>
    let inode := Inode.LinkInode
      { inode_num := cur, attrs := attr, path := path, target := target,
        num_links := attr.nlink, parent := parent, name := name,
        target_path := target_path }
    let fs1 : TreeFilesystem := { fs with cur_inode := cur }
    match (if cur ≠ 1 then
        match fs1.get_inode parent with
        | none => none
        | some parent_inode =>
          match parent_inode.contents with
          | none => none
          | some pcontents =>
            (parent_inode.set_contents (pcontents ++ [cur])).map
              (fun p' => fs1.set_inode p'.inode_num p')
      else some fs1) with
    | none => none
    | some fs2 =>
      let fs3 := match fs2.get_inode target with
        | some target_ino =>
          fs2.set_inode target
            (target_ino.set_attrs { target_ino.attrs with nlink := target_ino.attrs.nlink + 1 })
        | none => fs2
      some (inode, fs3.set_inode cur inode)

/-- Handler `getattr`: `ENOENT` when the inode is absent, otherwise reply
attrs with a 1-second TTL; the source's match hits `todo!()` (= `none`)
on a symlink inode. -/
def TreeFilesystem.getattr (fs : TreeFilesystem) (ino : Nat) :
    Option (Reply × TreeFilesystem) :=
  match fs.get_inode ino with
  | none => some (.error ENOENT, fs)
  | some (.LinkInode _) => none
  | some inode_data => some (.attr 1 inode_data.attrs, fs)

/-- The child-collection loop of `readdir`; `none` is the `todo!()` panic
when a recorded child is missing from the store. -/
def readdirEntries (fs : TreeFilesystem) :
    List Nat → Nat → Option (List (Nat × Nat × FKind × String))
  | [], _ => some []
  | i :: rest, idx =>
    match fs.get_inode i with
    | none => none
    | some c =>
      (readdirEntries fs rest (idx + 1)).map
        (fun l => (c.inode_num, idx + 2, c.attrs.kind, c.name) :: l)

/-- Handler `readdir`.  The source unwraps the inode lookup (panic on a
missing inode) and calls `contents()` on it (panic on a non-directory);
only `offset == 0` emits entries, always followed by `reply.ok()`. -/
def TreeFilesystem.readdir (fs : TreeFilesystem) (ino _fh offset : Nat) :
    Option (Reply × TreeFilesystem) :=
  match fs.get_inode ino with
  | none => none
  | some dir_inode =>
    match dir_inode.contents with
    | none => none
    | some dir_contents =>
      if offset = 0 then
        match readdirEntries fs (dir_contents.drop offset) 0 with
        | none => none
        | some children =>
          some (.dirOk ((dir_inode.inode_num, 0, FKind.Directory, ".") ::
            (dir_inode.inode_num, 1, FKind.Directory, "..") :: children), fs)
      else some (.dirOk [], fs)

/-- The child scan of `lookup`: a missing child is skipped (`continue`),
the first name match wins. -/
def lookupScan (fs : TreeFilesystem) : List Nat → String → Option Inode
  | [], _ => none
  | i :: rest, n =>
    match fs.get_inode i with
    | none => lookupScan fs rest n
    | some child => if child.name = n then some child else lookupScan fs rest n

/-- Handler `lookup`: `ENOENT` on a missing parent; `contents()` on a
non-directory parent panics; reply entry with TTL 1 s and generation 0 on
a name match, else `ENOENT`. -/
def TreeFilesystem.lookup (fs : TreeFilesystem) (parent : Nat) (name : String) :
    Option (Reply × TreeFilesystem) :=
  match fs.get_inode parent with
  | none => some (.error ENOENT, fs)
  | some parent_ino =>
    match parent_ino.contents with
    | none => none
    | some cs =>
      match lookupScan fs cs name with
      | some child => some (.entry 1 child.attrs 0, fs)
      | none => some (.error ENOENT, fs)

/-- The symlink-chasing step of `read`: a symlink is replaced by its
resolved terminal when resolution succeeds, else kept as is; `none`
propagates a non-terminating resolution. -/
def readResolve (fs : TreeFilesystem) : Inode → Option Inode
  | .FileInode f => some (.FileInode f)
  | .DirectoryInode d => some (.DirectoryInode d)
  | .LinkInode c =>
    match fs.resolve_symlink (.LinkInode c) with
    | none => none
    | some (some target_ino) => some target_ino
    | some none => some (.LinkInode c)

/-- The permission check and slicing tail of `read`.  `data()` on a
directory panics; so does slicing with `offset` beyond the clamped end. -/
def readAfter (fs : TreeFilesystem) (req : Request) (ino_data : Inode)
    (offset size : Nat) : Option (Reply × TreeFilesystem) :=
  if can_read ino_data.attrs.perm ino_data.attrs.uid ino_data.attrs.gid req.uid req.gid then
    match ino_data.data with
    | none => none
    | some file_data =>
      if offset ≤ (if file_data.length < offset + size then file_data.length
          else offset + size) then
        some (.dataBytes ((file_data.drop offset).take
          ((if file_data.length < offset + size then file_data.length else offset + size)
            - offset)), fs)
      else none
  else some (.error EACCES, fs)

/-- Handler `read`: `EPERM` on a missing inode, resolve symlinks, then
`can_read` gate and data slice. -/
def TreeFilesystem.read (fs : TreeFilesystem) (req : Request)
    (ino _fh offset size : Nat) : Option (Reply × TreeFilesystem) :=
  match fs.get_inode ino with
  | none => some (.error EPERM, fs)
  | some a =>
    match readResolve fs a with
    | none => none
    | some ino_data => readAfter fs req ino_data offset size

/-- The tail of `open` after the access-mode parse: fetch the inode
(`ENOSYS` when absent, `todo!()` on a symlink), check the granted modes
against the permission bits, then allocate a handle or reply `EACCES`.
The source also computes a `mode` of `R_OK`/`W_OK`/`X_OK` (switching to
`X_OK` under `FMODE_EXEC`) but only logs it; `exec_allowed` is `false` on
every path, so the check below is what actually runs. -/
def openRest (fs : TreeFilesystem) (req : Request) (inode : Nat)
    (read_allowed write_allowed exec_allowed : Bool) : Option (Reply × TreeFilesystem) :=
  match fs.get_inode inode with
  | none => some (.error ENOSYS, fs)
  | some (.LinkInode _) => none
  | some ino_data =>
    if (!read_allowed || can_read ino_data.attrs.perm ino_data.attrs.uid ino_data.attrs.gid
          req.uid req.gid)
        && (!write_allowed || can_write ino_data.attrs.perm ino_data.attrs.uid
          ino_data.attrs.gid req.uid req.gid)
        && (!exec_allowed || can_execute ino_data.attrs.perm ino_data.attrs.uid
          ino_data.attrs.gid req.uid req.gid) then
      match fs.allocate_file_handle inode read_allowed write_allowed with
      | none => none
      | some (fh, fs') => some (.opened fh 0, fs')
    else some (.error EACCES, fs)

/-- Handler `open` (`open` is a Lean keyword, hence the name): parse
`flags & O_ACCMODE`; `O_RDONLY` with `O_TRUNC` replies `EACCES`; an
unknown access mode replies `EINVAL`; then `openRest`. -/
def TreeFilesystem.openHandler (fs : TreeFilesystem) (req : Request)
    (inode flags : Nat) : Option (Reply × TreeFilesystem) :=
  let acc := flags &&& O_ACCMODE
  if acc = O_RDONLY then
    if flags &&& O_TRUNC ≠ 0 then some (.error EACCES, fs)
    else openRest fs req inode true false false
  else if acc = O_WRONLY then openRest fs req inode false true false
  else if acc = O_RDWR then openRest fs req inode true true false
  else some (.error EINVAL, fs)

/-- Handler `write`: `EACCES` when the handle's write bit is clear,
`EBADF` on a missing inode, `todo!()` on a symlink; then overwrite the
data from `offset`, refresh mtime/atime and recompute size/blocks, store
the inode and reply the number of bytes written. -/
def TreeFilesystem.write (fs : TreeFilesystem) (_req : Request)
    (inode fh offset : Nat) (dataBytes : List Nat) (now : Nat) :
    Option (Reply × TreeFilesystem) :=
  if fh &&& FILE_HANDLE_WRITE_BIT = 0 then some (.error EACCES, fs)
  else
    match fs.get_inode inode with
    | none => some (.error EBADF, fs)
    | some (.LinkInode _) => none
    | some ino0 =>
      match ino0.write_data dataBytes offset with
      | none => none
      | some ino1 =>
        match ino1.data with
        | none => none
        | some newData =>
          some (.written dataBytes.length,
            fs.set_inode inode (ino1.set_attrs
              { ino1.attrs with
                  mtime := now, atime := now, size := newData.length
                  blocks := (newData.length + fs.block_size - 1) / fs.block_size }))

/-- Handler `release`: delegate to `release_file_handle` (which unwraps —
panic when no counter entry exists), then reply ok. -/
def TreeFilesystem.release (fs : TreeFilesystem) (inode _fh : Nat) :
    Option (Reply × TreeFilesystem) :=
  match fs.release_file_handle inode with
  | none => none
  | some fs' => some (.okEmpty, fs')

/-- The child scan of `unlink`: `todo!()` (= outer `none`) when a recorded
child is missing; `some (some i)` is the first child whose name matches. -/
def findRemoveTarget (fs : TreeFilesystem) : List Nat → String → Option (Option Nat)
  | [], _ => some none
  | i :: rest, n =>
    match fs.get_inode i with
    | none => none
    | some cur => if cur.name = n then some (some i) else findRemoveTarget fs rest n

/-- Handler `unlink`: `EBADF` on a missing parent, `todo!()` on a symlink
parent, `EACCES` without write permission; otherwise remove the first
name-matching child from the store and from the parent's contents (a
no-match scan still updates the parent's times) and reply ok. -/
def TreeFilesystem.unlink (fs : TreeFilesystem) (req : Request) (parent : Nat)
    (name : String) (now : Nat) : Option (Reply × TreeFilesystem) :=
  match fs.get_inode parent with
  | none => some (.error EBADF, fs)
  | some (.LinkInode _) => none
  | some ino_data =>
    if can_write ino_data.attrs.perm ino_data.attrs.uid ino_data.attrs.gid
        req.uid req.gid then
      match ino_data.contents with
      | none => none
      | some cs =>
        match findRemoveTarget fs cs name with
        | none => none
        | some found =>
          let fs1 := match found with
            | some i => fs.remove_inode i
            | none => fs
          let cs' := match found with
            | some i => cs.erase i
            | none => cs
          match ino_data.set_attrs { ino_data.attrs with mtime := now, atime := now }
              |>.set_contents cs' with
          | none => none
          | some ino2 => some (.okEmpty, fs1.set_inode parent ino2)
    else some (.error EACCES, fs)

/-- The path-collision scan of `create` over the parent's contents;
outer `none` is the `todo!()` on a missing recorded child. -/
def pathClash (fs : TreeFilesystem) : List Nat → String → Option Bool
  | [], _ => some false
  | i :: rest, p =>
    match fs.get_inode i with
    | none => none
    | some cur => if cur.path = p then some true else pathClash fs rest p

/-- Handler `create`: `EEXIST` on a missing parent (the source's quirk) or
on a path collision among the parent's children; `EINVAL` on an unknown
access mode; `EACCES` without write permission on the parent; otherwise
create the file inode (mode `try_into` to u16 panics when `mode ≥ 2^16`),
re-append it to the stale parent clone, allocate a handle and reply
created. -/
def TreeFilesystem.create (fs : TreeFilesystem) (req : Request) (parent : Nat)
    (name : String) (mode _umask flags now : Nat) : Option (Reply × TreeFilesystem) :=
  match fs.get_inode parent with
  | none => some (.error EEXIST, fs)
  | some parent_inode0 =>
    match parent_inode0.contents with
    | none => none
    | some pcs =>
      match pathClash fs pcs (path_join parent_inode0.path name) with
      | none => none
      | some true => some (.error EEXIST, fs)
      | some false =>
        match (if flags &&& O_ACCMODE = O_RDONLY then some (true, false)
          else if flags &&& O_ACCMODE = O_WRONLY then some (false, true)
          else if flags &&& O_ACCMODE = O_RDWR then some (true, true)
          else none) with
        | none => some (.error EINVAL, fs)
        | some (readF, writeF) =>
          let parent_inode := parent_inode0.set_attrs
            { parent_inode0.attrs with mtime := now, atime := now }
          if can_write parent_inode.attrs.perm parent_inode.attrs.uid
              parent_inode.attrs.gid req.uid req.gid then
            if mode < 65536 then
              match fs.create_inode (path_join parent_inode0.path name) .RegularFile
                  mode 0 req.uid req.gid parent_inode.inode_num [] now with
              | none => none
              | some (.LinkInode _, _) => none
              | some (target_ino, fs1) =>
                match parent_inode.contents with
                | none => none
                | some pcs2 =>
                  match parent_inode.set_contents (pcs2 ++ [target_ino.inode_num]) with
                  | none => none
                  | some parent2 =>
                    match (fs1.set_inode parent parent2).allocate_file_handle
                        target_ino.inode_num readF writeF with
                    | none => none
                    | some (fh, fs3) => some (.created 0 target_ino.attrs 0 fh 0, fs3)
            else none
          else some (.error EACCES, fs)

/-- Handler `rename`: `EPERM` on a missing parent, new-parent or source
(by-path) inode; `todo!()` when any of those three is a symlink; `EINVAL`
when the target path already exists; `EPERM` unless the requester can read
the source and write the new parent; then move the inode (times updated,
number preserved) and reply ok. -/
def TreeFilesystem.rename (fs : TreeFilesystem) (req : Request) (parent : Nat)
    (name : String) (new_parent : Nat) (new_name : String) (now : Nat) :
    Option (Reply × TreeFilesystem) :=
  match fs.get_inode parent with
  | none => some (.error EPERM, fs)
  | some (.LinkInode _) => none
  | some parent_inode0 =>
    match fs.get_inode new_parent with
    | none => some (.error EPERM, fs)
    | some (.LinkInode _) => none
    | some new_parent_inode0 =>
      match fs.get_inode_by_path (path_join parent_inode0.path name) with
      | none => some (.error EPERM, fs)
      | some (.LinkInode _) => none
      | some source_ino0 =>
        if (fs.get_inode_by_path (path_join new_parent_inode0.path new_name)).isSome then
          some (.error EINVAL, fs)
        else if !(can_read source_ino0.attrs.perm source_ino0.attrs.uid
              source_ino0.attrs.gid req.uid req.gid)
            || !(can_write new_parent_inode0.attrs.perm new_parent_inode0.attrs.uid
              new_parent_inode0.attrs.gid req.uid req.gid) then
          some (.error EPERM, fs)
        else
          let source_ino := source_ino0.set_attrs
            { source_ino0.attrs with mtime := now, atime := now }
          let parent_inode := parent_inode0.set_attrs
            { parent_inode0.attrs with mtime := now, atime := now }
          let new_parent_inode := new_parent_inode0.set_attrs
            { new_parent_inode0.attrs with mtime := now, atime := now }
          match parent_inode.contents, new_parent_inode.contents with
          | some pcs, some npcs =>
            let source_num := source_ino.inode_num
            let fs1 := fs.remove_inode source_num
            let npcs' := if npcs.contains source_num then npcs else npcs ++ [source_num]
            let source2 := ((source_ino.set_parent new_parent_inode.inode_num).set_path
              (path_join new_parent_inode0.path new_name)).set_name new_name
            match parent_inode.set_contents (pcs.erase source_num),
                new_parent_inode.set_contents npcs' with
            | some parent2, some new_parent2 =>
              some (.okEmpty, ((fs1.set_inode parent2.inode_num parent2).set_inode
                new_parent2.inode_num new_parent2).set_inode source2.inode_num source2)
            | _, _ => none
          | _, _ => none

/-- Handler `setattr`: `EPERM` on a missing inode or a failed write check,
`todo!()` on a symlink; each provided field updates the attr record
(`mode` loses the setgid bit and is truncated to 16 bits), then the inode
is stored and the updated attrs replied with TTL 0.  The `size` field is
copied verbatim — the file's `data` is not resized. -/
def TreeFilesystem.setattr (fs : TreeFilesystem) (req : Request) (inode : Nat)
    (mode uid gid size : Option Nat) (atime mtime : Option TimeOrNow)
    (_fh : Option Nat) (now : Nat) : Option (Reply × TreeFilesystem) :=
  match fs.get_inode inode with
  | none => some (.error EPERM, fs)
  | some (.LinkInode _) => none
  | some ino_data =>
    if !(can_write ino_data.attrs.perm ino_data.attrs.uid ino_data.attrs.gid
        req.uid req.gid) then
      some (.error EPERM, fs)
    else
      let attrs := ino_data.attrs
      let attrs := match mode with
        | some m => { attrs with perm := (m &&& (4294967295 ^^^ S_ISGID)) % 65536 }
        | none => attrs
      let attrs := match uid with | some u => { attrs with uid := u } | none => attrs
      let attrs := match gid with | some g => { attrs with gid := g } | none => attrs
      let attrs := match size with | some s => { attrs with size := s } | none => attrs
      let attrs := match atime with
        | some .now => { attrs with atime := now }
        | some (.specificTime t) => { attrs with atime := t }
        | none => attrs
      let attrs := match mtime with
        | some .now => { attrs with mtime := now }
        | some (.specificTime t) => { attrs with mtime := t }
        | none => attrs
      some (.attr 0 (ino_data.set_attrs attrs).attrs,
        fs.set_inode (ino_data.set_attrs attrs).inode_num (ino_data.set_attrs attrs))

/-- Handler `symlink`: `EPERM` on a missing parent, `EACCES` without write
permission; resolve `"/" ++ target` by path — if found, the new link
records the target's inode number and a mountpoint-qualified target path
(`strip_prefix("/").unwrap()` panics when the target's stored path is not
absolute), otherwise target number 0 and the raw target string; the link
is created with mode 0o777 and size `target.length`, and its entry is
replied with TTL 0. -/
def TreeFilesystem.symlink (fs : TreeFilesystem) (req : Request) (parent : Nat)
    (link_name target : String) (now : Nat) : Option (Reply × TreeFilesystem) :=
  match fs.get_inode parent with
  | none => some (.error EPERM, fs)
  | some parent_ino =>
    if can_write parent_ino.attrs.perm parent_ino.attrs.uid parent_ino.attrs.gid
        req.uid req.gid then
      match fs.get_inode_by_path (path_join "/" target) with
      | some target_ino =>
        match strip_slash target_ino.path with
        | none => none
        | some stripped =>
          match fs.create_symlink (path_join parent_ino.path link_name) 511
              target.length req.uid req.gid parent target_ino.inode_num
              (path_join fs.mountpoint stripped) now with
          | none => none
          | some (link, fs') => some (.entry 0 link.attrs 0, fs')
      | none =>
        match fs.create_symlink (path_join parent_ino.path link_name) 511
            target.length req.uid req.gid parent 0 target now with
        | none => none
        | some (link, fs') => some (.entry 0 link.attrs 0, fs')
    else some (.error EACCES, fs)

/-- Handler `readlink`: the source unwraps the inode lookup (panic on a
missing inode); a resolved terminal is checked with `can_read` (`EACCES`
otherwise) and the link's stored `target_path` bytes are replied (empty
when the string is empty); unresolved links reply `ENOSYS`. -/
def TreeFilesystem.readlink (fs : TreeFilesystem) (req : Request) (inode : Nat) :
    Option (Reply × TreeFilesystem) :=
  match fs.get_inode inode with
  | none => none
  | some link_inode =>
    match fs.resolve_symlink link_inode with
    | none => none
    | some (some target_ino) =>
      if can_read target_ino.attrs.perm target_ino.attrs.uid target_ino.attrs.gid
          req.uid req.gid then
        match link_inode.get_symlink_data with
        | none => none
        | some (some s) => some (.dataBytes (strBytes s), fs)
        | some none => some (.dataBytes [], fs)
      else some (.error EACCES, fs)
    | some none => some (.error ENOSYS, fs)

/-- `TreeFilesystem::new` with an explicit construction time: create the
root directory, then one regular file per `(path, data)` pair in map
iteration (ascending path) order. -/
def TreeFilesystem.new (contents : List (String × String)) (mountpoint : String) :
    Option TreeFilesystem :=
  let fs0 : TreeFilesystem :=
    { tree := [], cur_inode := 0, block_size := 512, file_handles := [],
      mountpoint := mountpoint }
  match fs0.create_inode "/" .Directory 493 0 1000 1000 0 [] 0 with
  | none => none
  | some (_, fs1) =>
    contents.foldl (fun acc p =>
      match acc with
      | none => none
      | some fsacc =>
        (fsacc.create_inode p.1 .RegularFile 420 p.2.length 1000 1000 1
          (strBytes p.2) 0).map Prod.snd) (some fs1)

/-- The filesystem `main` builds: root plus `/answer` ("42") and `/foo`
("bar"); the `BTreeMap<String, String>` iterates "/answer" before "/foo". -/
def initFS : TreeFilesystem :=
  (TreeFilesystem.new [("/answer", "42"), ("/foo", "bar")] "/mnt").getD
    { tree := [], cur_inode := 0, block_size := 512, file_handles := [], mountpoint := "" }

/-- `initFS` after `symlink(parent = 1, link_name = "link", target = "answer")`
issued by uid/gid 1000 at time 7: the link gets inode number 4. -/
def fsWithLink : TreeFilesystem :=
  match initFS.symlink { uid := 1000, gid := 1000 } 1 "link" "answer" 7 with
  | some (_, fs') => fs'
  | none => initFS

/-- `initFS` after `setattr(ino = 2, size = Some 5)` issued by root at time 3. -/
def setattrSizeFS : TreeFilesystem :=
  match initFS.setattr { uid := 0, gid := 0 } 2 none none none (some 5)
      none none none 3 with
  | some (_, fs') => fs'
  | none => initFS

/-- A store whose two symlink inodes 2 and 3 target each other, as the
`symlink` handler could build with a future directory layer (nothing in
the resolver rules such stores out: it takes the `target` chain as given). -/
def cycAttrs (n : Nat) : FileAttr :=
  { ino := n, size := 1, blocks := 1, atime := 0, mtime := 0, ctime := 0, crtime := 0,
    kind := .Symlink, perm := 511, nlink := 1, uid := 1000, gid := 1000, rdev := 0,
    flags := 0, blksize := 512 }

/-- A symlink inode with number `n` and target number `t`. -/
def cycLink (n t : Nat) (p nm : String) : Inode :=
  .LinkInode { inode_num := n, attrs := cycAttrs n, path := p, target := t,
               num_links := 1, parent := 1, name := nm, target_path := "x" }

/-- The two-link cyclic store. -/
def cycFS : TreeFilesystem :=
  { tree := [(2, cycLink 2 3 "/a" "a"), (3, cycLink 3 2 "/b" "b")], cur_inode := 3,
    block_size := 512, file_handles := [], mountpoint := "/mnt" }

/-- `true` on file and directory inodes, `false` on symlinks. -/
def isFileOrDir : Inode → Bool
  | .LinkInode _ => false
  | _ => true

/-- A Bool-valued if-then-else with literal branches is the condition. -/
theorem ite_tf (b : Bool) : (if b then true else false) = b := by
  cases b <;> rfl

/-- C1: the claim says every handler replies an errno (and does not panic)
on a request naming an absent inode, naming readdir and readlink.  The
code instead calls `get_inode(ino).unwrap()` in both, which panics: on the
initial store, inode 99 is absent, `readdir(99, 0, 0)` panics and
`readlink(99)` panics (modelled as `none`) instead of replying an errno. -/
theorem c1_absent_inode_readdir_readlink_panic :
    initFS.get_inode 99 = none ∧
    initFS.readdir 99 0 0 = none ∧
    initFS.readlink { uid := 1000, gid := 1000 } 99 = none := by decide

/-- C3: `can_read` / `can_write` / `can_execute` return true exactly when
the owner bit is set and the requester uid equals the owner uid, or the
group bit is set and the requester gid equals the owner gid, or the other
bit is set, or the requester is uid 0 and gid 0 (bits 0o400/0o040/0o004,
0o200/0o020/0o002, 0o100/0o010/0o001 respectively, written in decimal). -/
theorem c3_permission_check_characterization (mode uid gid req_uid req_gid : Nat) :
    (can_read mode uid gid req_uid req_gid = true ↔
      (mode &&& 256 ≠ 0 ∧ req_uid = uid) ∨ (mode &&& 32 ≠ 0 ∧ req_gid = gid) ∨
      mode &&& 4 ≠ 0 ∨ (req_uid = 0 ∧ req_gid = 0)) ∧
    (can_write mode uid gid req_uid req_gid = true ↔
      (mode &&& 128 ≠ 0 ∧ req_uid = uid) ∨ (mode &&& 16 ≠ 0 ∧ req_gid = gid) ∨
      mode &&& 2 ≠ 0 ∨ (req_uid = 0 ∧ req_gid = 0)) ∧
    (can_execute mode uid gid req_uid req_gid = true ↔
      (mode &&& 64 ≠ 0 ∧ req_uid = uid) ∨ (mode &&& 8 ≠ 0 ∧ req_gid = gid) ∨
      mode &&& 1 ≠ 0 ∨ (req_uid = 0 ∧ req_gid = 0)) := by
  refine ⟨?_, ?_, ?_⟩ <;>
    simp [can_read, can_write, can_execute, ite_tf, Bool.or_eq_true, Bool.and_eq_true,
      bne_iff_ne, beq_iff_eq, or_assoc]

/-- C4: the claim says `resolve_symlink` terminates on every store via a
hop limit.  The source loop has no such limit: on the cyclic store
`cycFS` (links 2 and 3 targeting each other) the loop never reaches an
exit condition — for every fuel bound it runs out of fuel (`none`), so the
source's unbounded `while` never terminates and `resolve_symlink` on the
cycle is the divergence marker. -/
theorem c4_resolve_symlink_diverges_on_cycle :
    cycFS.resolve_symlink (cycLink 2 3 "/a" "a") = none ∧
    ∀ fuel cur, resolveLoop cycFS.tree fuel 2 cur = none ∧
      resolveLoop cycFS.tree fuel 3 cur = none := by
  refine ⟨by decide, ?_⟩
  intro fuel
  induction fuel with
  | zero => intro cur; exact ⟨by simp [resolveLoop], by simp [resolveLoop]⟩
  | succ n ih =>
    intro cur
    constructor
    · have h := (ih (cycLink 2 3 "/a" "a")).2
      simpa [resolveLoop, cycFS, cycLink, mapGet, Inode.target] using h
    · have h := (ih (cycLink 3 2 "/b" "b")).1
      simpa [resolveLoop, cycFS, cycLink, mapGet, Inode.target] using h

/-- C5: the claim says `getattr` replies attrs with TTL 1 s for every
present inode of any variant.  It does for files and directories and
replies `ENOENT` exactly on absent inodes, but the source's match has
`_ => todo!()` which panics on a present symlink: after creating
`/link -> /answer`, inode 4 is a present symlink and `getattr(4)` panics
(modelled as `none`). -/
theorem c5_getattr_panics_on_symlink :
    (fsWithLink.get_inode 4).map Inode.isLink = some true ∧
    fsWithLink.getattr 4 = none ∧
    initFS.getattr 99 = some (Reply.error ENOENT, initFS) := by decide

/-- C6: the claim says `attrs.size == len(data)` is preserved by every
operation, in particular by `setattr` with a size argument.  The source's
`setattr` copies the requested size into the attrs without resizing the
file's data: `setattr(ino = 2, size = Some 5)` on the initial store (file
`/answer`, 2 data bytes) succeeds and leaves `attrs.size = 5` while
`len(data) = 2`, violating the invariant. -/
theorem c6_setattr_size_violates_p3 :
    (initFS.setattr { uid := 0, gid := 0 } 2 none none none (some 5)
      none none none 3).isSome = true ∧
    (setattrSizeFS.get_inode 2).map (fun i => i.attrs.size) = some 5 ∧
    ((setattrSizeFS.get_inode 2).bind Inode.data).map List.length = some 2 := by decide

/-- C7: the claim says that under `O_RDONLY` with the exec-mode bit
(0x20) the open is granted iff `can_execute` grants access.  The source
computes `mode = X_OK` in that case but never consults it — the decision
uses `read_allowed = true` and thus `can_read`: opening inode 2 (mode
0o644, owner 1000) with flags `O_RDONLY | FMODE_EXEC` as uid/gid 1001
succeeds with a fresh handle although `can_execute` denies it. -/
theorem c7_open_exec_bit_ignored :
    can_execute 420 1000 1000 1001 1001 = false ∧
    can_read 420 1000 1000 1001 1001 = true ∧
    initFS.openHandler { uid := 1001, gid := 1001 } 2 (O_RDONLY ||| FMODE_EXEC) =
      some (Reply.opened (2 ^ 63 + 1) 0, { initFS with file_handles := [(2, 1)] }) := by
  decide

/-- C9 counterexample: the claim says `release` never errors or panics,
including when the inode has no entry in the file-handle table.  The
source's `release_file_handle` calls `file_handles.get(&ino).unwrap()`,
which panics on a missing entry: on the initial store (empty handle
table) `release(2)` panics (modelled as `none`). -/
theorem c9_release_without_entry_panics :
    mapGet initFS.file_handles 2 = none ∧ initFS.release 2 0 = none := by decide

/-- C9 as amended: when the inode has a counter entry, `release` replies
ok, never errors, and the stored counter is decremented by one but never
below 0 (an entry at 0 stays 0); the inode store is untouched. -/
theorem c9_release_decrements_with_floor (fs : TreeFilesystem) (ino n : Nat)
    (h : mapGet fs.file_handles ino = some n) :
    ∃ fs', fs.release ino 0 = some (Reply.okEmpty, fs') ∧
      mapGet fs'.file_handles ino = some (n - 1) ∧ fs'.tree = fs.tree := by
  by_cases hn : n = 0
  · refine ⟨fs, ?_, ?_, rfl⟩
    · unfold TreeFilesystem.release TreeFilesystem.release_file_handle
      rw [h]
      simp [hn]
    · rw [h, hn]
  · refine ⟨{ fs with file_handles := mapInsert fs.file_handles ino (n - 1) }, ?_, ?_, rfl⟩
    · unfold TreeFilesystem.release TreeFilesystem.release_file_handle
      rw [h]
      simp [hn]
    · simp [mapGet_insert]

/-- The initial store with an outstanding handle counter of 3 on inode 2. -/
def fhFS : TreeFilesystem := { initFS with file_handles := [(2, 3)] }

/-- Witness for the amended C9 at the concrete store `fhFS`. -/
theorem c9_release_decrements_with_floor_witness :
    ∃ fs', fhFS.release 2 0 = some (Reply.okEmpty, fs') ∧
      mapGet fs'.file_handles 2 = some 2 ∧ fs'.tree = fhFS.tree :=
  c9_release_decrements_with_floor fhFS 2 3 (by decide)

/-- Every error reply of `getattr` leaves the state unchanged. -/
theorem getattr_error_frame (fs : TreeFilesystem) (ino e : Nat) (s' : TreeFilesystem)
    (h : fs.getattr ino = some (Reply.error e, s')) : s' = fs := by
  unfold TreeFilesystem.getattr at h
  repeat' (first | split at h | simp only [] at h)
  all_goals simp_all

/-- Every error reply of `readdir` leaves the state unchanged (vacuous:
readdir only replies ok or panics). -/
theorem readdir_error_frame (fs : TreeFilesystem) (ino fh offset e : Nat)
    (s' : TreeFilesystem) (h : fs.readdir ino fh offset = some (Reply.error e, s')) :
    s' = fs := by
  unfold TreeFilesystem.readdir at h
  repeat' (first | split at h | simp only [] at h)
  all_goals simp_all

/-- Every error reply of `lookup` leaves the state unchanged. -/
theorem lookup_error_frame (fs : TreeFilesystem) (parent : Nat) (name : String) (e : Nat)
    (s' : TreeFilesystem) (h : fs.lookup parent name = some (Reply.error e, s')) :
    s' = fs := by
  unfold TreeFilesystem.lookup at h
  repeat' (first | split at h | simp only [] at h)
  all_goals simp_all

/-- Every error reply of `read` leaves the state unchanged. -/
theorem read_error_frame (fs : TreeFilesystem) (req : Request) (ino fh offset size e : Nat)
    (s' : TreeFilesystem) (h : fs.read req ino fh offset size = some (Reply.error e, s')) :
    s' = fs := by
  unfold TreeFilesystem.read readAfter at h
  repeat' (first | split at h | simp only [] at h)
  all_goals simp_all

/-- Every error reply of `open` leaves the state unchanged. -/
theorem openHandler_error_frame (fs : TreeFilesystem) (req : Request) (inode flags e : Nat)
    (s' : TreeFilesystem) (h : fs.openHandler req inode flags = some (Reply.error e, s')) :
    s' = fs := by
  unfold TreeFilesystem.openHandler openRest at h
  repeat' (first | split at h | simp only [] at h)
  all_goals simp_all

/-- Every error reply of `write` leaves the state unchanged. -/
theorem write_error_frame (fs : TreeFilesystem) (req : Request) (inode fh offset : Nat)
    (dataBytes : List Nat) (now e : Nat) (s' : TreeFilesystem)
    (h : fs.write req inode fh offset dataBytes now = some (Reply.error e, s')) :
    s' = fs := by
  unfold TreeFilesystem.write at h
  repeat' (first | split at h | simp only [] at h)
  all_goals simp_all

/-- Every error reply of `release` leaves the state unchanged (vacuous:
release only replies ok or panics). -/
theorem release_error_frame (fs : TreeFilesystem) (inode fh e : Nat) (s' : TreeFilesystem)
    (h : fs.release inode fh = some (Reply.error e, s')) : s' = fs := by
  unfold TreeFilesystem.release at h
  repeat' (first | split at h | simp only [] at h)
  all_goals simp_all

/-- Every error reply of `unlink` leaves the state unchanged. -/
theorem unlink_error_frame (fs : TreeFilesystem) (req : Request) (parent : Nat)
    (name : String) (now e : Nat) (s' : TreeFilesystem)
    (h : fs.unlink req parent name now = some (Reply.error e, s')) : s' = fs := by
  unfold TreeFilesystem.unlink at h
  repeat' (first | split at h | simp only [] at h)
  all_goals simp_all

/-- Every error reply of `create` leaves the state unchanged. -/
theorem create_error_frame (fs : TreeFilesystem) (req : Request) (parent : Nat)
    (name : String) (mode umask flags now e : Nat) (s' : TreeFilesystem)
    (h : fs.create req parent name mode umask flags now = some (Reply.error e, s')) :
    s' = fs := by
  unfold TreeFilesystem.create at h
  repeat' (first | split at h | simp only [] at h)
  all_goals simp_all

/-- Every error reply of `rename` leaves the state unchanged. -/
theorem rename_error_frame (fs : TreeFilesystem) (req : Request) (parent : Nat)
    (name : String) (new_parent : Nat) (new_name : String) (now : Nat) (e : Nat)
    (s' : TreeFilesystem)
    (h : fs.rename req parent name new_parent new_name now = some (Reply.error e, s')) :
    s' = fs := by
  unfold TreeFilesystem.rename at h
  repeat' (first | split at h | simp only [] at h)
  all_goals simp_all

/-- Every error reply of `setattr` leaves the state unchanged. -/
theorem setattr_error_frame (fs : TreeFilesystem) (req : Request) (inode : Nat)
    (mode uid gid size : Option Nat) (atime mtime : Option TimeOrNow)
    (fh : Option Nat) (now e : Nat) (s' : TreeFilesystem)
    (h : fs.setattr req inode mode uid gid size atime mtime fh now =
      some (Reply.error e, s')) : s' = fs := by
  unfold TreeFilesystem.setattr at h
  repeat' (first | split at h | simp only [] at h)
  all_goals simp_all

/-- Every error reply of `symlink` leaves the state unchanged. -/
theorem symlink_error_frame (fs : TreeFilesystem) (req : Request) (parent : Nat)
    (link_name target : String) (now e : Nat) (s' : TreeFilesystem)
    (h : fs.symlink req parent link_name target now = some (Reply.error e, s')) :
    s' = fs := by
  unfold TreeFilesystem.symlink at h
  repeat' (first | split at h | simp only [] at h)
  all_goals simp_all

/-- Every error reply of `readlink` leaves the state unchanged. -/
theorem readlink_error_frame (fs : TreeFilesystem) (req : Request) (inode e : Nat)
    (s' : TreeFilesystem) (h : fs.readlink req inode = some (Reply.error e, s')) :
    s' = fs := by
  unfold TreeFilesystem.readlink at h
  repeat' (first | split at h | simp only [] at h)
  all_goals simp_all

/-- C2: for every handler and every request, replying an errno implies the
whole filesystem state after the handler (inode store, file-handle table,
inode counter, mountpoint) equals the state before it: every mutation is
committed only on success or panic-free success paths, never before an
error reply. -/
theorem c2_error_replies_preserve_state :
    (∀ (fs : TreeFilesystem) (ino e : Nat) (s' : TreeFilesystem),
      fs.getattr ino = some (Reply.error e, s') → s' = fs) ∧
    (∀ (fs : TreeFilesystem) (ino fh offset e : Nat) (s' : TreeFilesystem),
      fs.readdir ino fh offset = some (Reply.error e, s') → s' = fs) ∧
    (∀ (fs : TreeFilesystem) (parent : Nat) (name : String) (e : Nat)
      (s' : TreeFilesystem), fs.lookup parent name = some (Reply.error e, s') → s' = fs) ∧
    (∀ (fs : TreeFilesystem) (req : Request) (ino fh offset size e : Nat)
      (s' : TreeFilesystem),
      fs.read req ino fh offset size = some (Reply.error e, s') → s' = fs) ∧
    (∀ (fs : TreeFilesystem) (req : Request) (inode flags e : Nat) (s' : TreeFilesystem),
      fs.openHandler req inode flags = some (Reply.error e, s') → s' = fs) ∧
    (∀ (fs : TreeFilesystem) (req : Request) (inode fh offset : Nat)
      (dataBytes : List Nat) (now e : Nat) (s' : TreeFilesystem),
      fs.write req inode fh offset dataBytes now = some (Reply.error e, s') → s' = fs) ∧
    (∀ (fs : TreeFilesystem) (inode fh e : Nat) (s' : TreeFilesystem),
      fs.release inode fh = some (Reply.error e, s') → s' = fs) ∧
    (∀ (fs : TreeFilesystem) (req : Request) (parent : Nat) (name : String)
      (now e : Nat) (s' : TreeFilesystem),
      fs.unlink req parent name now = some (Reply.error e, s') → s' = fs) ∧
    (∀ (fs : TreeFilesystem) (req : Request) (parent : Nat) (name : String)
      (mode umask flags now e : Nat) (s' : TreeFilesystem),
      fs.create req parent name mode umask flags now = some (Reply.error e, s') →
        s' = fs) ∧
    (∀ (fs : TreeFilesystem) (req : Request) (parent : Nat) (name : String)
      (new_parent : Nat) (new_name : String) (now e : Nat) (s' : TreeFilesystem),
      fs.rename req parent name new_parent new_name now = some (Reply.error e, s') →
        s' = fs) ∧
    (∀ (fs : TreeFilesystem) (req : Request) (inode : Nat)
      (mode uid gid size : Option Nat) (atime mtime : Option TimeOrNow)
      (fh : Option Nat) (now e : Nat) (s' : TreeFilesystem),
      fs.setattr req inode mode uid gid size atime mtime fh now =
        some (Reply.error e, s') → s' = fs) ∧
    (∀ (fs : TreeFilesystem) (req : Request) (parent : Nat) (link_name target : String)
      (now e : Nat) (s' : TreeFilesystem),
      fs.symlink req parent link_name target now = some (Reply.error e, s') → s' = fs) ∧
    (∀ (fs : TreeFilesystem) (req : Request) (inode e : Nat) (s' : TreeFilesystem),
      fs.readlink req inode = some (Reply.error e, s') → s' = fs) :=
  ⟨getattr_error_frame, readdir_error_frame, lookup_error_frame, read_error_frame,
    openHandler_error_frame, write_error_frame, release_error_frame, unlink_error_frame,
    create_error_frame, rename_error_frame, setattr_error_frame, symlink_error_frame,
    readlink_error_frame⟩

/-- Witness for C2 at a concrete erroring request: `getattr(99)` on the
initial store replies `ENOENT` and the theorem yields state preservation. -/
theorem c2_error_replies_preserve_state_witness :
    initFS.getattr 99 = some (Reply.error ENOENT, initFS) ∧ initFS = initFS :=
  ⟨by decide, c2_error_replies_preserve_state.1 initFS 99 ENOENT initFS (by decide)⟩

/-- The root directory record of the initial store. -/
def rootDirW : DirectoryInode :=
  { inode_num := 1,
    attrs := { ino := 1, size := 0, blocks := 0, atime := 0, mtime := 0, ctime := 0,
               crtime := 0, kind := .Directory, perm := 493, nlink := 1, uid := 1000,
               gid := 1000, rdev := 0, flags := 0, blksize := 512 },
    path := "/", contents := [2, 3], num_links := 1, parent := 0, name := "/" }

/-- The `/foo` file inode of the initial store. -/
def fooFileW : Inode :=
  Inode.FileInode
    { inode_num := 3,
      attrs := { ino := 3, size := 3, blocks := 1, atime := 0, mtime := 0, ctime := 0,
                 crtime := 0, kind := .RegularFile, perm := 420, nlink := 1, uid := 1000,
                 gid := 1000, rdev := 0, flags := 0, blksize := 512 },
      path := "/foo", data := strBytes "bar", num_links := 1, name := "foo", parent := 1 }

/-- The `/answer` file inode of the initial store. -/
def ansFileW : Inode :=
  Inode.FileInode
    { inode_num := 2,
      attrs := { ino := 2, size := 2, blocks := 1, atime := 0, mtime := 0, ctime := 0,
                 crtime := 0, kind := .RegularFile, perm := 420, nlink := 1, uid := 1000,
                 gid := 1000, rdev := 0, flags := 0, blksize := 512 },
      path := "/answer", data := strBytes "42", num_links := 1, name := "answer",
      parent := 1 }

/-- C8 counterexample: the claim quantifies over every child named `n` of
parent `p`, but when that child is a symlink the source's `rename` panics
at the `_ => todo!()` arm of the source-inode match before reaching the
target-exists branch: on the store with `/link` (a symlink child of the
root), `rename(1, "link", 1, "link")` panics instead of replying EINVAL. -/
theorem c8_rename_symlink_child_panics :
    (fsWithLink.get_inode_by_path "/link").map Inode.isLink = some true ∧
    fsWithLink.rename { uid := 1000, gid := 1000 } 1 "link" 1 "link" 9 = none := by
  decide

/-- C8 as amended: for every parent directory `p` and name `n` such that
the path lookup of `p.path/n` finds an inode that is a regular file or a
directory, `rename(p, n, p, n)` replies EINVAL via the target-already-
exists branch (source and target paths are equal, so the target-path
lookup finds the source inode itself) and returns the state unchanged. -/
theorem c8_rename_same_parent_same_name_einval (fs : TreeFilesystem) (req : Request)
    (p : Nat) (n : String) (d : DirectoryInode) (c : Inode) (now : Nat)
    (hp : fs.get_inode p = some (Inode.DirectoryInode d))
    (hc : fs.get_inode_by_path (path_join d.path n) = some c)
    (hfd : isFileOrDir c = true) :
    fs.rename req p n p n now = some (Reply.error EINVAL, fs) := by
  cases c with
  | LinkInode l => simp [isFileOrDir] at hfd
  | FileInode a => simp [TreeFilesystem.rename, hp, Inode.path, hc]
  | DirectoryInode b => simp [TreeFilesystem.rename, hp, Inode.path, hc]

/-- Witness for the amended C8: `rename(1, "foo", 1, "foo")` on the
initial store replies EINVAL and leaves the store unchanged. -/
theorem c8_rename_same_parent_same_name_einval_witness :
    initFS.rename { uid := 1000, gid := 1000 } 1 "foo" 1 "foo" 9 =
      some (Reply.error EINVAL, initFS) :=
  c8_rename_same_parent_same_name_einval initFS { uid := 1000, gid := 1000 } 1 "foo"
    rootDirW fooFileW 9 (by decide) (by decide) (by decide)

/-- C10 counterexample: the claim asserts that whenever the target path
resolves to an existing inode `t`, the handler leaves every field of `t`
other than `attrs.nlink` unchanged.  The reachable request
`symlink(1, "link", "/")` refutes it: `"/"` joined onto `"/"` is `"/"`,
so the target resolves to the root — which is also the parent — and
`create_symlink` first appends the new link's number to the root's
`contents` and then bumps its `nlink`: on the initial store the root goes
from `nlink` 1, `contents` [2, 3] to `nlink` 2, `contents` [2, 3, 4], so a
field of `t` other than `nlink` did change. -/
theorem c10_symlink_to_root_changes_target_contents :
    (initFS.get_inode_by_path (path_join "/" "/")).map Inode.inode_num = some 1 ∧
    (initFS.get_inode 1).map (fun i => (i.attrs.nlink, i.contents)) =
      some (1, some [2, 3]) ∧
    ((initFS.symlink { uid := 1000, gid := 1000 } 1 "link" "/" 7).map
        (fun rs => (rs.2.get_inode 1).map (fun i => (i.attrs.nlink, i.contents)))) =
      some (some (2, some [2, 3, 4])) := by decide

/-- C10 as amended: when the target path resolves to an inode `t` distinct
from the parent, `t`'s `nlink` is incremented by exactly one with every
other field of `t` unchanged, and no inode other than the parent, `t`, and
the fresh link inode changes; when the target does not resolve, no inode
other than the parent and the fresh link inode changes.  (When the target
resolves to the parent itself, `t`'s `contents` changes too — see the
counterexample above.)  The side conditions are store-consistency facts
that hold in every reachable state: the parent is a directory stored under
its own number, the requester may write it, the next inode number and
number 0 are unused, and the composed link path has a final component. -/
theorem c10_symlink_target_nlink_frame (fs : TreeFilesystem) (req : Request)
    (parent : Nat) (link_name target : String) (now : Nat) (d : DirectoryInode)
    (nm : String)
    (hp : fs.get_inode parent = some (Inode.DirectoryInode d))
    (hpn : d.inode_num = parent)
    (hw : can_write d.attrs.perm d.attrs.uid d.attrs.gid req.uid req.gid = true)
    (hfresh : fs.get_inode (fs.cur_inode + 1) = none)
    (h0 : fs.get_inode 0 = none)
    (hname : (if path_join d.path link_name = "/" then some (path_join d.path link_name)
      else file_name (path_join d.path link_name)) = some nm) :
    (∀ t sp, fs.get_inode_by_path (path_join "/" target) = some t →
      fs.get_inode t.inode_num = some t →
      strip_slash t.path = some sp →
      t.inode_num ≠ parent →
      ((fs.symlink req parent link_name target now).map
          (fun rs => rs.2.get_inode t.inode_num)) =
        some (some (t.set_attrs { t.attrs with nlink := t.attrs.nlink + 1 })) ∧
      ∀ i, i ≠ parent → i ≠ t.inode_num → i ≠ fs.cur_inode + 1 →
        ((fs.symlink req parent link_name target now).map
            (fun rs => rs.2.get_inode i)) = some (fs.get_inode i)) ∧
    (fs.get_inode_by_path (path_join "/" target) = none →
      (fs.symlink req parent link_name target now).isSome = true ∧
      ∀ i, i ≠ parent → i ≠ fs.cur_inode + 1 →
        ((fs.symlink req parent link_name target now).map
            (fun rs => rs.2.get_inode i)) = some (fs.get_inode i)) := by
  simp only [TreeFilesystem.get_inode] at hp hfresh h0
  have hparent0 : parent ≠ 0 := by
    intro hq
    rw [hq, h0] at hp
    exact Option.noConfusion hp
  have hzp : (0 : Nat) ≠ parent := Ne.symm hparent0
  constructor
  · intro t sp ht htc hsp htpne
    simp only [TreeFilesystem.get_inode] at htc
    have htf : t.inode_num ≠ fs.cur_inode + 1 := by
      intro hq
      rw [hq, hfresh] at htc
      exact Option.noConfusion htc
    by_cases hcur0 : fs.cur_inode = 0
    · have hcur : fs.cur_inode + 1 = 1 := by rw [hcur0]
      rw [hcur] at htf
      rcases t with a | b | c <;>
      · simp only [Inode.inode_num, Inode.path, Inode.attrs] at htc hsp htf htpne ⊢
        constructor
        · simp only [TreeFilesystem.symlink, TreeFilesystem.create_symlink,
            TreeFilesystem.get_inode, TreeFilesystem.set_inode, hp, Inode.attrs, Inode.path,
            Inode.contents, Inode.set_contents, Inode.inode_num, hw, ht, hsp, hname, hpn,
            hcur, hcur0, eq_self_iff_true, if_true, ite_true, not_true, not_false_iff,
            if_false, ite_false, Option.map_some, Option.map_some', Option.isSome_some]
          simp [mapGet_insert, htc, htf, htpne, hcur, hcur0, Inode.set_attrs]
        · intro i hip hit hic
          rw [hcur] at hic
          simp only [TreeFilesystem.symlink, TreeFilesystem.create_symlink,
            TreeFilesystem.get_inode, TreeFilesystem.set_inode, hp, Inode.attrs, Inode.path,
            Inode.contents, Inode.set_contents, Inode.inode_num, hw, ht, hsp, hname, hpn,
            hcur, hcur0, eq_self_iff_true, if_true, ite_true, not_true, not_false_iff,
            if_false, ite_false, Option.map_some, Option.map_some', Option.isSome_some]
          simp [mapGet_insert, htc, htf, htpne, hip, hit, hic, hcur, hcur0, Inode.set_attrs]
    · have hcur : ¬fs.cur_inode + 1 = 1 := by simpa using hcur0
      rcases t with a | b | c <;>
      · simp only [Inode.inode_num, Inode.path, Inode.attrs] at htc hsp htf htpne ⊢
        constructor
        · simp only [TreeFilesystem.symlink, TreeFilesystem.create_symlink,
            TreeFilesystem.get_inode, TreeFilesystem.set_inode, hp, Inode.attrs, Inode.path,
            Inode.contents, Inode.set_contents, Inode.inode_num, hw, ht, hsp, hname, hpn,
            hcur, hcur0, eq_self_iff_true, if_true, ite_true, not_true, not_false_iff,
            if_false, ite_false, Option.map_some, Option.map_some', Option.isSome_some]
          simp [mapGet_insert, htc, htf, htpne, hcur, hcur0, Inode.set_attrs]
        · intro i hip hit hic
          simp only [TreeFilesystem.symlink, TreeFilesystem.create_symlink,
            TreeFilesystem.get_inode, TreeFilesystem.set_inode, hp, Inode.attrs, Inode.path,
            Inode.contents, Inode.set_contents, Inode.inode_num, hw, ht, hsp, hname, hpn,
            hcur, hcur0, eq_self_iff_true, if_true, ite_true, not_true, not_false_iff,
            if_false, ite_false, Option.map_some, Option.map_some', Option.isSome_some]
          simp [mapGet_insert, htc, htf, htpne, hip, hit, hic, hcur, hcur0, Inode.set_attrs]
  · intro hnone
    by_cases hcur0 : fs.cur_inode = 0
    · have hcur : fs.cur_inode + 1 = 1 := by rw [hcur0]
      constructor
      · simp only [TreeFilesystem.symlink, TreeFilesystem.create_symlink,
          TreeFilesystem.get_inode, TreeFilesystem.set_inode, hp, Inode.attrs, Inode.path,
          Inode.contents, Inode.set_contents, Inode.inode_num, hw, hnone, hname, hpn,
          hcur, hcur0, eq_self_iff_true, if_true, ite_true, not_true, not_false_iff,
          if_false, ite_false, Option.map_some, Option.map_some', Option.isSome_some]
        simp [mapGet_insert, h0, hparent0, hzp, hcur, hcur0]
      · intro i hip hic
        rw [hcur] at hic
        simp only [TreeFilesystem.symlink, TreeFilesystem.create_symlink,
          TreeFilesystem.get_inode, TreeFilesystem.set_inode, hp, Inode.attrs, Inode.path,
          Inode.contents, Inode.set_contents, Inode.inode_num, hw, hnone, hname, hpn,
          hcur, hcur0, eq_self_iff_true, if_true, ite_true, not_true, not_false_iff,
          if_false, ite_false, Option.map_some, Option.map_some', Option.isSome_some]
        simp [mapGet_insert, h0, hparent0, hzp, hip, hic, hcur, hcur0]
    · have hcur : ¬fs.cur_inode + 1 = 1 := by simpa using hcur0
      constructor
      · simp only [TreeFilesystem.symlink, TreeFilesystem.create_symlink,
          TreeFilesystem.get_inode, TreeFilesystem.set_inode, hp, Inode.attrs, Inode.path,
          Inode.contents, Inode.set_contents, Inode.inode_num, hw, hnone, hname, hpn,
          hcur, hcur0, eq_self_iff_true, if_true, ite_true, not_true, not_false_iff,
          if_false, ite_false, Option.map_some, Option.map_some', Option.isSome_some]
        simp [mapGet_insert, h0, hparent0, hzp, hcur, hcur0]
      · intro i hip hic
        simp only [TreeFilesystem.symlink, TreeFilesystem.create_symlink,
          TreeFilesystem.get_inode, TreeFilesystem.set_inode, hp, Inode.attrs, Inode.path,
          Inode.contents, Inode.set_contents, Inode.inode_num, hw, hnone, hname, hpn,
          hcur, hcur0, eq_self_iff_true, if_true, ite_true, not_true, not_false_iff,
          if_false, ite_false, Option.map_some, Option.map_some', Option.isSome_some]
        simp [mapGet_insert, h0, hparent0, hzp, hip, hic, hcur, hcur0]

/-- Witness for C10 at the concrete request `symlink(1, "link", "answer")`
on the initial store: the `/answer` inode (number 2) gets `nlink` 2 with
all other fields unchanged, and the untouched inode 3 keeps its record. -/
theorem c10_symlink_target_nlink_frame_witness :
    ((initFS.symlink { uid := 1000, gid := 1000 } 1 "link" "answer" 7).map
        (fun rs => rs.2.get_inode ansFileW.inode_num)) =
      some (some (ansFileW.set_attrs
        { ansFileW.attrs with nlink := ansFileW.attrs.nlink + 1 })) ∧
    ((initFS.symlink { uid := 1000, gid := 1000 } 1 "link" "answer" 7).map
        (fun rs => rs.2.get_inode 3)) = some (initFS.get_inode 3) :=
  have h := (c10_symlink_target_nlink_frame initFS { uid := 1000, gid := 1000 } 1
    "link" "answer" 7 rootDirW "link" (by decide) (by decide) (by decide) (by decide)
    (by decide) (by decide)).1 ansFileW "answer" (by decide) (by decide) (by decide)
    (by decide)
  ⟨h.1, h.2 3 (by decide) (by decide) (by decide)⟩

end Dnsfs
